import Mathlib

/-!
Verification development for the attachment subsystem of sync_gateway
(`db/attachment.go`).  The Go code is shallowly embedded: document bodies
and attachment metadata are association lists of dynamic values, the
key/value bucket, delta cache and delta codec (external collaborators) are
function-valued parameters, and every store/cache/codec interaction is
recorded in an event trace so that claims about "no write happened" or
"the codec was never invoked" can be stated directly.
-/

namespace SG

/-- Dynamic value, modelling the Go `interface{}` values that occur in
document bodies: strings, byte slices (`[]byte`), JSON numbers, booleans,
Go `nil` (JSON null), and string-keyed maps.  A Go map is modelled as an
association list, standing for one fixed iteration order of the map. -/
inductive Val where
  | str : String → Val
  | bytes : List Nat → Val
  | int : Int → Val
  | bool : Bool → Val
  | null : Val
  | vmap : List (String × Val) → Val
deriving Repr

/-- Lookup in a Go map modelled as an association list (`m[k]` with ok). -/
def mget (m : List (String × Val)) (k : String) : Option Val :=
  match m with
  | [] => none
  | (k2, v) :: rest => if k2 = k then some v else mget rest k

/-- Go `m[k] = v`: replace the entry in place when the key is present,
append it otherwise. -/
def mset (m : List (String × Val)) (k : String) (v : Val) : List (String × Val) :=
  match m with
  | [] => [(k, v)]
  | (k2, v2) :: rest => if k2 = k then (k2, v) :: rest else (k2, v2) :: mset rest k v

/-- Go `delete(m, k)`. -/
def mdel (m : List (String × Val)) (k : String) : List (String × Val) :=
  match m with
  | [] => []
  | (k2, v) :: rest => if k2 = k then mdel rest k else (k2, v) :: mdel rest k

/-- Go type assertion `v.(string)` with the ok-default: yields `""` when the
value is absent or not a string. -/
def asString : Option Val → String
  | some (.str s) => s
  | _ => ""

/-- Go `base.ToInt64` applied to a metadata field: succeeds exactly on
numeric values (JSON numbers). -/
def toInt64 : Option Val → Option Int
  | some (.int n) => some n
  | _ => none

/-- Is a Go interface value `nil`?  (A missing map entry reads as `nil`.) -/
def isNilVal : Option Val → Bool
  | none => true
  | some .null => true
  | _ => false

/-- The ok of a Go type assertion `v.(string)`. -/
def isStringVal : Option Val → Bool
  | some (.str _) => true
  | _ => false

/-- Go fmt `%q` on the ASCII strings used here: wrap in double quotes,
escaping backslash and double quote. -/
def goQuote (s : String) : String :=
  "\"" ++ String.mk (s.toList.foldr
    (fun c acc =>
      if c = '"' then '\\' :: '"' :: acc
      else if c = '\\' then '\\' :: '\\' :: acc
      else c :: acc) []) ++ "\""

/-! ### Base64 (Go `encoding/base64` StdEncoding, RFC 4648) -/

def b64alphabet : List Char :=
  "ABCDEFGHIJKLMNOPQRSTUVWXYZabcdefghijklmnopqrstuvwxyz0123456789+/".toList

def b64char (n : Nat) : Char := b64alphabet.getD n '?'

/-- Standard base64 encoding of a byte list. -/
def base64Encode : List Nat → String
  | [] => ""
  | [a] => String.mk [b64char (a / 4 % 64), b64char (a % 4 * 16), '=', '=']
  | [a, b] =>
    String.mk [b64char (a / 4 % 64), b64char (a % 4 * 16 + b / 16), b64char (b % 16 * 4), '=']
  | a :: b :: c :: rest =>
    String.mk [b64char (a / 4 % 64), b64char (a % 4 * 16 + b / 16),
      b64char (b % 16 * 4 + c / 64), b64char (c % 64)] ++ base64Encode rest

def b64index (c : Char) : Option Nat :=
  b64alphabet.findIdx? (· == c)

/-- Standard base64 decoding (strict: padded, 4-character groups),
as Go `base64.StdEncoding.DecodeString`. -/
def base64DecodeChars : List Char → Option (List Nat)
  | [] => some []
  | a :: b :: c :: d :: rest =>
    match b64index a, b64index b with
    | some va, some vb =>
      if c = '=' then
        if d = '=' ∧ rest = [] then some [va * 4 + vb / 16] else none
      else
        match b64index c with
        | some vc =>
          if d = '=' then
            if rest = [] then some [va * 4 + vb / 16, vb % 16 * 16 + vc / 4] else none
          else
            match b64index d with
            | some vd =>
              match base64DecodeChars rest with
              | some tail =>
                some ((va * 4 + vb / 16) :: (vb % 16 * 16 + vc / 4) :: (vc % 4 * 64 + vd) :: tail)
              | none => none
            | none => none
        | none => none
    | _, _ => none
  | _ => none

def base64Decode (s : String) : Option (List Nat) :=
  base64DecodeChars s.toList

/-! ### SHA-1 (Go `crypto/sha1`) -/

/-- Truncate to a 32-bit word. -/
def w32 (n : Nat) : Nat := n % 4294967296

/-- Rotate a 32-bit word left by `s`. -/
def rotl (s x : Nat) : Nat := (w32 (x <<< s)) ||| (x >>> (32 - s))

/-- SHA-1 padding: append `0x80`, zero bytes up to 56 mod 64, then the
64-bit big-endian bit length. -/
def sha1pad (msg : List Nat) : List Nat :=
  let len := msg.length
  let bitLen := len * 8
  let zeros := (64 - (len + 9) % 64) % 64
  msg ++ [128] ++ List.replicate zeros 0 ++
    [bitLen / 2 ^ 56 % 256, bitLen / 2 ^ 48 % 256, bitLen / 2 ^ 40 % 256,
     bitLen / 2 ^ 32 % 256, bitLen / 2 ^ 24 % 256, bitLen / 2 ^ 16 % 256,
     bitLen / 2 ^ 8 % 256, bitLen % 256]

/-- Big-endian 32-bit words from a byte list. -/
def bytesToWords : List Nat → List Nat
  | a :: b :: c :: d :: rest => (a * 2 ^ 24 + b * 2 ^ 16 + c * 2 ^ 8 + d) :: bytesToWords rest
  | _ => []

/-- Extend the 16 block words towards 80, one word per unit of fuel
(`w[i] = rotl1 (w[i-3] ^ w[i-8] ^ w[i-14] ^ w[i-16])`). -/
def sha1extendAux (fuel : Nat) (ws : List Nat) : List Nat :=
  match fuel with
  | 0 => ws
  | f + 1 =>
    let n := ws.length
    let w := rotl 1 ((ws.getD (n - 3) 0) ^^^ (ws.getD (n - 8) 0) ^^^
      (ws.getD (n - 14) 0) ^^^ (ws.getD (n - 16) 0))
    sha1extendAux f (ws ++ [w])

/-- The SHA-1 round function for round `t`. -/
def sha1f (t b c d : Nat) : Nat :=
  if t < 20 then (b &&& c) ||| ((b ^^^ 4294967295) &&& d)
  else if t < 40 then b ^^^ c ^^^ d
  else if t < 60 then (b &&& c) ||| (b &&& d) ||| (c &&& d)
  else b ^^^ c ^^^ d

/-- The SHA-1 round constant for round `t`. -/
def sha1k (t : Nat) : Nat :=
  if t < 20 then 1518500249
  else if t < 40 then 1859775393
  else if t < 60 then 2400959708
  else 3395469782

/-- Run the 80 compression rounds over the extended schedule. -/
def sha1rounds : Nat → List Nat → Nat × Nat × Nat × Nat × Nat → Nat × Nat × Nat × Nat × Nat
  | _, [], st => st
  | t, w :: ws, (a, b, c, d, e) =>
    let tmp := w32 (rotl 5 a + sha1f t b c d + e + sha1k t + w)
    sha1rounds (t + 1) ws (tmp, a, rotl 30 b, c, d)

/-- Compress one padded 64-byte block into the running state. -/
def sha1block (h : Nat × Nat × Nat × Nat × Nat) (block : List Nat) :
    Nat × Nat × Nat × Nat × Nat :=
  let ws := sha1extendAux 64 (bytesToWords block)
  let (h0, h1, h2, h3, h4) := h
  let (a, b, c, d, e) := sha1rounds 0 ws (h0, h1, h2, h3, h4)
  (w32 (h0 + a), w32 (h1 + b), w32 (h2 + c), w32 (h3 + d), w32 (h4 + e))

/-- Split a byte list into 64-byte chunks (fuelled structural recursion;
the fuel is the list length, ample since every chunk consumes at least one
byte). -/
def chunks64Fuel : Nat → List Nat → List (List Nat)
  | 0, _ => []
  | _, [] => []
  | fuel + 1, l => l.take 64 :: chunks64Fuel fuel (l.drop 64)

/-- Split a byte list into 64-byte chunks. -/
def chunks64 (l : List Nat) : List (List Nat) := chunks64Fuel l.length l

def sha1digestWords (msg : List Nat) : Nat × Nat × Nat × Nat × Nat :=
  (chunks64 (sha1pad msg)).foldl sha1block
    (1732584193, 4023233417, 2562383102, 271733878, 3285377520)

/-- Big-endian bytes of a 32-bit word. -/
def wordBytes (w : Nat) : List Nat :=
  [w / 2 ^ 24 % 256, w / 2 ^ 16 % 256, w / 2 ^ 8 % 256, w % 256]

/-- The 20-byte SHA-1 digest of a byte list (Go `crypto/sha1`). -/
def sha1 (msg : List Nat) : List Nat :=
  let (h0, h1, h2, h3, h4) := sha1digestWords msg
  wordBytes h0 ++ wordBytes h1 ++ wordBytes h2 ++ wordBytes h3 ++ wordBytes h4

/-! ### Content keys -/

/-- Key for retrieving an attachment from the bucket (go: `AttachmentKey`). -/
abbrev AttachmentKey := String

/-- go: `SHA1DigestKey` — `"sha1-"` followed by the standard-base64
encoding of the SHA-1 digest of the bytes. -/
def SHA1DigestKey (data : List Nat) : AttachmentKey :=
  "sha1-" ++ base64Encode (sha1 data)

/-- go: `attachmentKeyToDocKey` — the bucket key under which an attachment
is stored. -/
def attachmentKeyToDocKey (key : AttachmentKey) : String :=
  "_sync:att:" ++ key

/-! ### Regular expressions (Go `regexp`, restricted to the constructs the
four patterns of the file's init use) -/

/-- Minimal regular-expression abstract syntax: literal characters,
sequencing, alternation, an optional atom (`e?`), the anchors `^` and `$`,
and the ASCII word boundary `\b`. -/
inductive RE where
  | chr : Char → RE
  | seq : RE → RE → RE
  | alt : RE → RE → RE
  | opt : RE → RE
  | bos : RE
  | eos : RE
  | wb : RE

/-- ASCII word character (`\w` of Go regexp). -/
def isWordChar (c : Char) : Bool := c.isAlphanum || c = '_'

/-- Is position `i` of `s` an ASCII word boundary? -/
def atWordBoundary (s : List Char) (i : Nat) : Bool :=
  let before :=
    match i with
    | 0 => false
    | j + 1 =>
      match s.get? j with
      | some c => isWordChar c
      | none => false
  let after :=
    match s.get? i with
    | some c => isWordChar c
    | none => false
  before != after

/-- All end positions of a match of the pattern starting at position `i`
of `s`. -/
def reMatch (s : List Char) : RE → Nat → List Nat
  | .chr c, i =>
    match s.get? i with
    | some c2 => if c2 = c then [i + 1] else []
    | none => []
  | .seq r1 r2, i => (reMatch s r1 i).foldr (fun j acc => reMatch s r2 j ++ acc) []
  | .alt r1 r2, i => reMatch s r1 i ++ reMatch s r2 i
  | .opt r, i => i :: reMatch s r i
  | .bos, i => if i = 0 then [i] else []
  | .eos, i => if i = s.length then [i] else []
  | .wb, i => if atWordBoundary s i then [i] else []

/-- Literal string pattern (for nonempty literals). -/
def reStrChars : List Char → RE
  | [] => .opt (.chr 'x')
  | [c] => .chr c
  | c :: c2 :: rest => .seq (.chr c) (reStrChars (c2 :: rest))

def reStr (s : String) : RE := reStrChars s.toList

/-- Go `MatchString` for a case-insensitive pattern (all literals of the
pattern are lower case; the subject is lowercased first, implementing the
`(?i)` flag of the four patterns). -/
def reMatchString (r : RE) (s : String) : Bool :=
  let cs := s.toList.map Char.toLower
  (List.range (cs.length + 1)).any (fun i => !(reMatch cs r i).isEmpty)

/-- Patterns that contain no start anchor and no word boundary; such
patterns match position-independently (used to reason about suffix
matches of the filename pattern). -/
def shiftable : RE → Bool
  | .chr _ => true
  | .seq r1 r2 => shiftable r1 && shiftable r2
  | .alt r1 r2 => shiftable r1 && shiftable r2
  | .opt r => shiftable r
  | .bos => false
  | .eos => true
  | .wb => false

/-- go: kCompressedTypes, compiled from `(?i)\bg?zip\b`. -/
def kCompressedTypes : RE :=
  .seq .wb (.seq (.opt (.chr 'g')) (.seq (reStr "zip") .wb))

/-- go: kGoodTypes, compiled from `(?i)(^text)|(xml\b)|(\b(html|json|yaml)\b)`. -/
def kGoodTypes : RE :=
  .alt (.seq .bos (reStr "text"))
    (.alt (.seq (reStr "xml") .wb)
      (.seq .wb (.seq (.alt (reStr "html") (.alt (reStr "json") (reStr "yaml"))) .wb)))

/-- go: kBadTypes, compiled from `(?i)^(audio|image|video)/`. -/
def kBadTypes : RE :=
  .seq .bos (.seq (.alt (reStr "audio") (.alt (reStr "image") (reStr "video"))) (.chr '/'))

/-- The alternation inside go kBadFilenames:
`zip|t?gz|rar|7z|jpe?g|png|gif|svgz|mp3|m4a|ogg|wav|aiff|mp4|mov|avi|theora`. -/
def kBadFilenamesAlts : RE :=
  .alt (reStr "zip") (.alt (.seq (.opt (.chr 't')) (reStr "gz")) (.alt (reStr "rar")
    (.alt (reStr "7z") (.alt (.seq (reStr "jp") (.seq (.opt (.chr 'e')) (.chr 'g')))
    (.alt (reStr "png") (.alt (reStr "gif") (.alt (reStr "svgz") (.alt (reStr "mp3")
    (.alt (reStr "m4a") (.alt (reStr "ogg") (.alt (reStr "wav") (.alt (reStr "aiff")
    (.alt (reStr "mp4") (.alt (reStr "mov") (.alt (reStr "avi")
      (reStr "theora"))))))))))))))))

/-- go: kBadFilenames, compiled from
`(?i)\.(zip|t?gz|rar|7z|jpe?g|png|gif|svgz|mp3|m4a|ogg|wav|aiff|mp4|mov|avi|theora)$`. -/
def kBadFilenames : RE := .seq (.chr '.') (.seq kBadFilenamesAlts .eos)

/-! ### Data model -/

/-- Errors: client-facing HTTP errors (go `base.HTTPErrorf`), base64
decoding errors (go `base64.CorruptInputError`), and infrastructure errors
propagated verbatim from the bucket. -/
inductive SgError where
  | httpErr : Nat → String → SgError
  | b64Err : SgError
  | bucketErr : String → SgError
deriving Repr, DecidableEq

/-- A document revision body (go `Body = map[string]interface{}`). -/
abbrev Body := List (String × Val)

/-- go: the Attachment struct.  The `db` pointer of the Go struct is
passed separately to the operations that use it. -/
structure Attachment where
  Name : String
  followingData : Option (List Nat)
  possibleDeltaSources : Option (List AttachmentKey)
  deltaSource : AttachmentKey
  meta : List (String × Val)
deriving Repr

/-- go: Attachment.ContentType. -/
def Attachment.ContentType (a : Attachment) : String :=
  asString (mget a.meta "content_type")

/-- go: Attachment.Key — the `digest` metadata property. -/
def Attachment.Key (a : Attachment) : AttachmentKey :=
  asString (mget a.meta "digest")

/-- textproto `MIMEHeader.Set` on headers modelled as an association
list (the keys used here are already in canonical form). -/
def hset (h : List (String × String)) (k v : String) : List (String × String) :=
  if (h.find? (fun p => p.1 == k)).isSome then
    h.map (fun p => if p.1 == k then (k, v) else p)
  else h ++ [(k, v)]

/-- Header lookup. -/
def hget (h : List (String × String)) (k : String) : Option String :=
  (h.find? (fun p => p.1 == k)).map (fun p => p.2)

/-- go: Attachment.Headers. -/
def Attachment.Headers (a : Attachment) (full : Bool) : List (String × String) :=
  let h : List (String × String) := []
  let h :=
    if a.deltaSource ≠ "" then
      hset (hset h "Content-Encoding" "zdelta") "X-Delta-Source" a.deltaSource
    else
      let encoding := asString (mget a.meta "encoding")
      if encoding ≠ "" then hset h "Content-Encoding" encoding else h
  if full then
    if a.ContentType ≠ "" then hset h "Content-Type" a.ContentType else h
  else
    hset h "Content-Disposition" ("attachment; filename=" ++ goQuote a.Name)

/-- go: Attachment.Data — the raw data if already loaded (`none` is Go
nil): the following-data buffer if set, else the `data` field when it
holds a byte slice. -/
def Attachment.Data (a : Attachment) : Option (List Nat) :=
  match a.followingData with
  | some data => some data
  | none =>
    match mget a.meta "data" with
    | some (.bytes b) => some b
    | _ => none

/-- go: Attachment.Compressible. -/
def Attachment.Compressible (a : Attachment) : Bool :=
  if isStringVal (mget a.meta "encoding") || a.deltaSource != "" then false
  else if reMatchString kBadFilenames a.Name then false
  else if a.ContentType != "" then
    !reMatchString kCompressedTypes a.ContentType &&
      (reMatchString kGoodTypes a.ContentType || !reMatchString kBadTypes a.ContentType)
  else true

/-- go: Attachment.Follows. -/
def Attachment.Follows (a : Attachment) : Bool :=
  match mget a.meta "follows" with
  | some (.bool true) => true
  | _ => false

/-- go: decodeData — accepts a byte slice as is, base64-decodes a string,
rejects anything else with a client-facing error. -/
def decodeData : Val → Except SgError (List Nat)
  | .bytes b => .ok b
  | .str s =>
    match base64Decode s with
    | some b => .ok b
    | none => .error .b64Err
  | _ => .error (.httpErr 400 "invalid attachment data")

/-- go: Attachment.SetFollows — converts an inline record to
out-of-band. -/
def Attachment.SetFollows (a : Attachment) : Attachment :=
  match mget a.meta "data" with
  | none => a
  | some .null => a
  | some data =>
    let fd := match decodeData data with | .ok b => some b | .error _ => none
    { a with
      followingData := fd,
      meta := mset (mdel (mdel a.meta "data") "zdeltasrc") "follows" (.bool true) }

/-! ### The database context and the delta resolution engine -/

/-- Observable interactions with the external collaborators. -/
inductive Ev where
  | cacheGet : AttachmentKey → AttachmentKey → Ev
  | bucketGet : String → Ev
  | bucketAdd : String → Ev
  | codecGen : AttachmentKey → AttachmentKey → Ev
deriving Repr, DecidableEq

/-- The database context, holding the external collaborators of spec §6.
`bucket k = none` models a failed or missing `GetRaw` (Go returns
`nil, err`); `addRaw` gives the error of a raw add, if any;
`deltaCache s t` is the cached delta payload for `(source, target)`
(`some []` is the stored negative sentinel, `none` a cache miss, matching
go `getCachedAttachmentZDelta` returning nil); `codec src tgt` is the
delta the codec produces (`none` models a nil result of
go `generateAttachmentZDelta`, `some []` a generated "not worth it"
answer). -/
structure DB where
  bucket : String → Option (List Nat)
  addRaw : String → List Nat → Option SgError
  deltaCache : AttachmentKey → AttachmentKey → Option (List Nat)
  codec : List Nat → List Nat → Option (List Nat)

/-- go: Database.GetAttachment — a bucket `GetRaw` at the namespaced
key. -/
def GetAttachment (db : DB) (key : AttachmentKey) :
    Except SgError (List Nat) × List Ev :=
  match db.bucket (attachmentKeyToDocKey key) with
  | some b => (.ok b, [.bucketGet (attachmentKeyToDocKey key)])
  | none => (.error (.bucketErr (attachmentKeyToDocKey key)), [.bucketGet (attachmentKeyToDocKey key)])

/-- Phase 1 of go `GetAttachmentMaybeAsDelta`: scan the candidates, in
order, for a cached delta.  A nonempty hit is returned with its candidate;
an empty (negative) hit abandons delta use and fetches the full target;
`none` means no cache hit across all candidates. -/
def gamadCached (db : DB) (key : AttachmentKey) :
    List AttachmentKey → Option (Except SgError (List Nat × AttachmentKey)) × List Ev
  | [] => (none, [])
  | sourceKey :: rest =>
    match db.deltaCache sourceKey key with
    | some result =>
      if result.length = 0 then
        match GetAttachment db key with
        | (.ok b, evs) => (some (.ok (b, "")), .cacheGet sourceKey key :: evs)
        | (.error e, evs) => (some (.error e), .cacheGet sourceKey key :: evs)
      else (some (.ok (result, sourceKey)), [.cacheGet sourceKey key])
    | none =>
      let (r, evs) := gamadCached db key rest
      (r, .cacheGet sourceKey key :: evs)

/-- Phase 2 of go `GetAttachmentMaybeAsDelta`: walk the candidates in
order; a candidate whose raw blob cannot be fetched is skipped, a nil
codec answer moves on to the next candidate, an empty codec answer breaks
out of the loop, a nonempty delta is returned with its candidate.  `none`
means fall through to the full target. -/
def gamadGenerate (db : DB) (key : AttachmentKey) (target : List Nat) :
    List AttachmentKey → Option (List Nat × AttachmentKey) × List Ev
  | [] => (none, [])
  | sourceKey :: rest =>
    match db.bucket (attachmentKeyToDocKey sourceKey) with
    | some src =>
      match db.codec src target with
      | some result =>
        if result.length = 0 then
          (none, [.bucketGet (attachmentKeyToDocKey sourceKey), .codecGen sourceKey key])
        else
          (some (result, sourceKey),
            [.bucketGet (attachmentKeyToDocKey sourceKey), .codecGen sourceKey key])
      | none =>
        let (r, evs) := gamadGenerate db key target rest
        (r, .bucketGet (attachmentKeyToDocKey sourceKey) :: .codecGen sourceKey key :: evs)
    | none =>
      let (r, evs) := gamadGenerate db key target rest
      (r, .bucketGet (attachmentKeyToDocKey sourceKey) :: evs)

/-- go: Database.GetAttachmentMaybeAsDelta. -/
def GetAttachmentMaybeAsDelta (db : DB) (key : AttachmentKey)
    (sourceKeys : List AttachmentKey) :
    Except SgError (List Nat × AttachmentKey) × List Ev :=
  match gamadCached db key sourceKeys with
  | (some r, evs) => (r, evs)
  | (none, evs1) =>
    match GetAttachment db key with
    | (.error e, evs2) => (.error e, evs1 ++ evs2)
    | (.ok target, evs2) =>
      match gamadGenerate db key target sourceKeys with
      | (some (result, sourceKey), evs3) => (.ok (result, sourceKey), evs1 ++ evs2 ++ evs3)
      | (none, evs3) => (.ok (target, ""), evs1 ++ evs2 ++ evs3)

/-- Result of go `Attachment.LoadData`: the returned bytes (`none` is Go
nil), the returned error, the receiver after the call, and the
collaborator events. -/
structure LoadResult where
  data : Option (List Nat)
  err : Option SgError
  att : Attachment
  evs : List Ev
deriving Repr

/-- The candidate list that go `LoadData` passes to the engine (its local
`sourceKeys`): the possible delta sources, enabled only if `deltaOK` is
set, the candidate slice is non-nil and the attachment is compressible. -/
def loadSourceKeys (a : Attachment) (deltaOK : Bool) : List AttachmentKey :=
  if deltaOK && a.possibleDeltaSources.isSome && a.Compressible then
    a.possibleDeltaSources.getD []
  else []

/-- go: Attachment.LoadData. -/
def Attachment.LoadData (db : DB) (a : Attachment) (deltaOK : Bool) : LoadResult :=
  match a.Data with
  | some data => ⟨some data, none, a, []⟩
  | none =>
    match GetAttachmentMaybeAsDelta db a.Key (loadSourceKeys a deltaOK) with
    | (.ok (data, deltaSource), evs) =>
      let meta := mset a.meta "data" (.bytes data)
      let meta := if deltaSource ≠ "" then mset meta "zdeltasrc" (.str deltaSource) else meta
      let meta := mdel meta "stub"
      ⟨some data, none,
        { a with meta := meta, possibleDeltaSources := none, deltaSource := deltaSource },
        evs⟩
    | (.error e, evs) => ⟨none, some e, a, evs⟩

/-! ### Discovery -/

/-- go: Body.ImmutableAttachmentsCopy — a deep copy so that later handle
mutations cannot affect a shared original; in this pure embedding it is
the identity on the value. -/
def Body.ImmutableAttachmentsCopy (body : Body) : Body := body

/-- go: Body.Attachments — the `_attachments` property as a map (Go nil,
here `none`, when missing or not map-shaped). -/
def Body.Attachments (body : Body) : Option (List (String × Val)) :=
  match mget body "_attachments" with
  | some (.vmap m) => some m
  | _ => none

/-- go: Database.findAttachments.  An entry whose value is not map-shaped
would make the Go code panic on its unchecked type assertion; here the
cast defaults to the empty map (which has no usable `revpos` and is
likewise excluded). -/
def findAttachments (body : Body) (minRevpos : Int)
    (deltaSrcKeys : List (String × AttachmentKey)) : Body × List Attachment :=
  let body := Body.ImmutableAttachmentsCopy body
  let atts := (Body.Attachments body).getD []
  (body, atts.filterMap (fun p =>
    let meta := match p.2 with | .vmap m => m | _ => []
    match toInt64 (mget meta "revpos") with
    | some revpos =>
      if minRevpos ≤ revpos then
        some { Name := p.1, followingData := none,
               possibleDeltaSources :=
                 match (deltaSrcKeys.find? (fun q => q.1 == p.1)).map (fun q => q.2) with
                 | some src => some [src]
                 | none => none,
               deltaSource := "", meta := meta }
      else none
    | none => none))

/-! ### Ingestion -/

/-- Go `v == true` on an interface value. -/
def isTrueVal : Option Val → Bool
  | some (.bool true) => true
  | _ => false

/-- go: Database.storeAttachment — content-addressed write of a raw
attachment; the key is returned even when the add fails. -/
def storeAttachment (db : DB) (attachment : List Nat) :
    (AttachmentKey × Option SgError) × List Ev :=
  let key := SHA1DigestKey attachment
  ((key, db.addRaw (attachmentKeyToDocKey key) attachment),
    [.bucketAdd (attachmentKeyToDocKey key)])

/-- The normalized stub that the inline case of go `storeAttachments`
writes back: `stub`, `digest`, `revpos`, `content_type` carried forward
when present, and either `encoding`/`encoded_length` (preserving a
numeric `length`) or `length`. -/
def newAttMeta (meta : List (String × Val)) (key : AttachmentKey) (generation : Int)
    (attachment : List Nat) : List (String × Val) :=
  let newMeta := mset (mset (mset [] "stub" (.bool true)) "digest" (.str key))
    "revpos" (.int generation)
  let newMeta :=
    match mget meta "content_type" with
    | some (.str contentType) => mset newMeta "content_type" (.str contentType)
    | _ => newMeta
  match mget meta "encoding" with
  | none => mset newMeta "length" (.int attachment.length)
  | some .null => mset newMeta "length" (.int attachment.length)
  | some encoding =>
    let newMeta := mset (mset newMeta "encoding" encoding)
      "encoded_length" (.int attachment.length)
    match mget meta "length" with
    | some (.int length) => mset newMeta "length" (.int length)
    | _ => newMeta

/-- The parent attachment map as go `storeAttachments` computes it from
the revision-tree collaborator's answer (`parentBody` stands for the
result of go `getAvailableRev(doc, parentRev)`, spec §6): Go nil unless
the parent body exists and carries a map-shaped `_attachments`. -/
def parentAttachmentsOf (parentBody : Option Body) : Option (List (String × Val)) :=
  match parentBody with
  | some parent =>
    match mget parent "_attachments" with
    | some (.vmap m) => some m
    | _ => none
  | none => none

/-- The loop of go `storeAttachments` over the attachment-map entries:
`parentAtts` is the lazily fetched parent attachment map (Go re-fetches
while it is nil), `atts` the map being mutated in place, the last argument
the entries still to visit.  Returns the final map, the returned error,
and the collaborator events. -/
def saLoop (db : DB) (parentBody : Option Body) (generation : Int) :
    Option (List (String × Val)) → List (String × Val) → List (String × Val) →
    (List (String × Val) × Option SgError) × List Ev
  | _, atts, [] => ((atts, none), [])
  | parentAtts, atts, (name, value) :: rest =>
    match value with
    | .vmap meta =>
      (match mget meta "data" with
       | some data =>
         match decodeData data with
         | .error e => ((atts, some e), [])
         | .ok attachment =>
           match storeAttachment db attachment with
           | ((_, some e), evs) => ((atts, some e), evs)
           | ((key, none), evs) =>
             let atts2 := mset atts name (.vmap (newAttMeta meta key generation attachment))
             let (r, evs2) := saLoop db parentBody generation parentAtts atts2 rest
             (r, evs ++ evs2)
       | none =>
         if isTrueVal (mget meta "stub") = false then
           ((atts, some (.httpErr 400 ("Missing data of attachment " ++ goQuote name))), [])
         else
           match toInt64 (mget meta "revpos") with
           | none =>
             ((atts, some (.httpErr 400
               ("Missing/invalid revpos in stub attachment " ++ goQuote name))), [])
           | some revpos =>
             if revpos < 1 then
               ((atts, some (.httpErr 400
                 ("Missing/invalid revpos in stub attachment " ++ goQuote name))), [])
             else
               let parentAtts2 :=
                 match parentAtts with
                 | none => parentAttachmentsOf parentBody
                 | some pa => some pa
               match parentAtts2 with
               | some pa =>
                 let atts2 :=
                   if isNilVal (mget pa name) then atts
                   else mset atts name ((mget pa name).getD .null)
                 saLoop db parentBody generation (some pa) atts2 rest
               | none =>
                 if isNilVal (mget meta "digest") then
                   ((atts, some (.httpErr 400
                     ("Missing digest in stub attachment " ++ goQuote name))), [])
                 else saLoop db parentBody generation none atts rest)
    | _ => ((atts, some (.httpErr 400 "Invalid _attachments")), [])

/-- Result of go `Database.storeAttachments`: the body after the in-place
mutation of its attachment map, the returned error (`none` is success),
and the collaborator events. -/
structure StoreResult where
  body : Body
  err : Option SgError
  evs : List Ev
deriving Repr

/-- go: Database.storeAttachments.  `parentBody` is the revision-tree
collaborator's answer for `(doc, parentRev)` (go `getAvailableRev`,
spec §6). -/
def storeAttachments (db : DB) (parentBody : Option Body) (generation : Int)
    (body : Body) : StoreResult :=
  match Body.Attachments body with
  | some atts =>
    let ((atts2, err), evs) := saLoop db parentBody generation none atts atts
    ⟨mset body "_attachments" (.vmap atts2), err, evs⟩
  | none =>
    match mget body "_attachments" with
    | none => ⟨body, none, []⟩
    | some .null => ⟨body, none, []⟩
    | some _ => ⟨body, some (.httpErr 400 "Invalid _attachments"), []⟩

/-! ### Map lemmas -/

theorem mget_mset_self (m : List (String × Val)) (k : String) (v : Val) :
    mget (mset m k v) k = some v := by
  induction m with
  | nil => simp [mset, mget]
  | cons p rest ih =>
    obtain ⟨k2, v2⟩ := p
    by_cases h : k2 = k
    · simp [mset, mget, h]
    · simp [mset, mget, h, ih]

theorem mget_mset_ne (m : List (String × Val)) (k k2 : String) (v : Val) (h : k2 ≠ k) :
    mget (mset m k2 v) k = mget m k := by
  induction m with
  | nil => simp [mset, mget, h]
  | cons p rest ih =>
    obtain ⟨k3, v3⟩ := p
    by_cases h2 : k3 = k2
    · subst h2
      rw [mset, if_pos rfl, mget, mget, if_neg h, if_neg h]
    · rw [mset, if_neg h2, mget, mget]
      by_cases h3 : k3 = k
      · rw [if_pos h3, if_pos h3]
      · rw [if_neg h3, if_neg h3]
        exact ih

theorem mget_mdel_self (m : List (String × Val)) (k : String) :
    mget (mdel m k) k = none := by
  induction m with
  | nil => simp [mdel, mget]
  | cons p rest ih =>
    obtain ⟨k2, v2⟩ := p
    by_cases h : k2 = k
    · rw [mdel, if_pos h]
      exact ih
    · rw [mdel, if_neg h, mget, if_neg h]
      exact ih

theorem mget_mdel_ne (m : List (String × Val)) (k k2 : String) (h : k2 ≠ k) :
    mget (mdel m k2) k = mget m k := by
  induction m with
  | nil => simp [mdel, mget]
  | cons p rest ih =>
    obtain ⟨k3, v3⟩ := p
    by_cases h2 : k3 = k2
    · subst h2
      rw [mdel, if_pos rfl, mget, if_neg h]
      exact ih
    · rw [mdel, if_neg h2, mget, mget]
      by_cases h3 : k3 = k
      · rw [if_pos h3, if_pos h3]
      · rw [if_neg h3, if_neg h3]
        exact ih

/-! ### Concrete fixtures for witnesses and counterexamples -/

/-- A collaborator context in which every interaction fails or misses. -/
def dbEmpty : DB := ⟨fun _ => none, fun _ _ => none, fun _ _ => none, fun _ _ => none⟩

/-- A context whose bucket holds one blob under key `T`. -/
def dbT : DB :=
  { bucket := fun k => if k = "_sync:att:T" then some [9, 9] else none,
    addRaw := fun _ _ => none,
    deltaCache := fun _ _ => none,
    codec := fun _ _ => none }

/-- A stub attachment handle whose digest is `T`. -/
def attT : Attachment :=
  ⟨"photo", none, none, "", [("digest", .str "T"), ("stub", .bool true)]⟩

/-- An attachment handle with already-resolved inline bytes. -/
def attInline : Attachment :=
  ⟨"note", none, none, "", [("data", .bytes [1, 2])]⟩

/-- A stub attachment handle whose digest is `M` (missing everywhere). -/
def attM : Attachment :=
  ⟨"photo", none, none, "", [("digest", .str "M"), ("stub", .bool true)]⟩

/-- A handle with a selected delta source (and a shadowed `encoding`). -/
def attD : Attachment :=
  ⟨"x", none, none, "S", [("encoding", .str "gzip")]⟩

/-- A handle with an `encoding` field and no delta source. -/
def attE : Attachment :=
  ⟨"x", none, none, "", [("encoding", .str "gzip")]⟩

/-- A two-attachment body used to exercise discovery. -/
def bodyF : Body :=
  [("_attachments", .vmap
    [("old", .vmap [("digest", .str "sha1-o"), ("revpos", .int 1)]),
     ("new", .vmap [("digest", .str "sha1-n"), ("revpos", .int 3)])])]

/-- A context with a negative cached delta for `(s1, T)`, a positive one
for `(s3, T)` and the target blob present. -/
def dbC4 : DB :=
  { bucket := fun k => if k = "_sync:att:T" then some [9, 9] else none,
    addRaw := fun _ _ => none,
    deltaCache := fun s t =>
      if s = "s1" ∧ t = "T" then some []
      else if s = "s3" ∧ t = "T" then some [3] else none,
    codec := fun _ _ => none }

/-- A context with no cached deltas, the target and one candidate blob
present, and a codec producing a delta for that candidate. -/
def dbC5 : DB :=
  { bucket := fun k => if k = "_sync:att:T" then some [9, 9]
      else if k = "_sync:att:s2" then some [7] else none,
    addRaw := fun _ _ => none,
    deltaCache := fun _ _ => none,
    codec := fun src tgt => if src = [7] ∧ tgt = [9, 9] then some [5] else none }

/-- Stub metadata with a valid `revpos` but no `digest`. -/
def metaC1 : List (String × Val) := [("stub", .bool true), ("revpos", .int 1)]

/-- A body holding only that stub under the name `a`. -/
def bodyC1 : Body := [("_attachments", .vmap [("a", .vmap metaC1)])]

/-- A parent body whose attachment map exists but has no entry `a`. -/
def parentC1 : Body :=
  [("_attachments", .vmap [("b", .vmap [("digest", .str "sha1-x"), ("revpos", .int 1)])])]

/-- A body whose attachment map holds a good inline entry followed by a
non-map entry. -/
def bodyC2 : Body :=
  [("_attachments", .vmap [("a", .vmap [("data", .bytes [1])]), ("z", .str "oops")])]

/-- A body whose reserved attachment-map field holds a scalar. -/
def bodyScalar : Body := [("_attachments", .str "oops")]

/-! ### Theorems -/

set_option maxRecDepth 4000 in
/-- Known-answer test tying the content-key pipeline (SHA-1 and base64) to
the standard test vector for the empty input. -/
theorem SHA1DigestKey_empty : SHA1DigestKey [] = "sha1-2jmj7l5rSw0yVb/vlWAYkK/YBwk=" := by
  rfl

/-- C9: the content key is deterministic, it is the string `"sha1-"`
followed by the standard-base64 encoding of the SHA-1 digest of the bytes,
and the storage address of a key prefixes the fixed namespace token
`"_sync:att:"`. -/
theorem C9_content_key (b1 b2 : List Nat) (h : b1 = b2) :
    SHA1DigestKey b1 = SHA1DigestKey b2 ∧
    SHA1DigestKey b1 = "sha1-" ++ base64Encode (sha1 b1) ∧
    ∀ k : AttachmentKey, attachmentKeyToDocKey k = "_sync:att:" ++ k := by
  subst h
  exact ⟨rfl, rfl, fun _ => rfl⟩

theorem C9_content_key_witness :
    [1, 2] = [1, 2] ∧
    (SHA1DigestKey [1, 2] = SHA1DigestKey [1, 2] ∧
     SHA1DigestKey [1, 2] = "sha1-" ++ base64Encode (sha1 [1, 2]) ∧
     ∀ k : AttachmentKey, attachmentKeyToDocKey k = "_sync:att:" ++ k) :=
  ⟨rfl, C9_content_key [1, 2] [1, 2] rfl⟩

/-- C3: on an attachment with no already-resolved data, a successful run
of the delta resolution engine makes `LoadData` cache the returned bytes
in the `data` field, clear the candidate list, record the chosen source
(in the handle's delta-source slot, and under `zdeltasrc` when the chosen
source is non-empty) and remove the `stub` field; and on an attachment
whose data is already resolved, `LoadData` returns it with no collaborator
interaction at all. -/
theorem C3_loaddata_success (db : DB) (deltaOK : Bool) :
    (∀ (a : Attachment) (bs : List Nat) (src : AttachmentKey) (evs : List Ev),
      a.Data = none →
      GetAttachmentMaybeAsDelta db a.Key (loadSourceKeys a deltaOK) = (.ok (bs, src), evs) →
      (a.LoadData db deltaOK).data = some bs ∧
      (a.LoadData db deltaOK).err = none ∧
      mget (a.LoadData db deltaOK).att.meta "data" = some (.bytes bs) ∧
      (a.LoadData db deltaOK).att.possibleDeltaSources = none ∧
      (a.LoadData db deltaOK).att.deltaSource = src ∧
      mget (a.LoadData db deltaOK).att.meta "stub" = none ∧
      (src ≠ "" → mget (a.LoadData db deltaOK).att.meta "zdeltasrc" = some (.str src))) ∧
    (∀ (a : Attachment) (d : List Nat), a.Data = some d →
      a.LoadData db deltaOK = ⟨some d, none, a, []⟩) := by
  constructor
  · intro a bs src evs hnone hok
    have hL : a.LoadData db deltaOK = ⟨some bs, none,
        { Name := a.Name, followingData := a.followingData,
          possibleDeltaSources := none, deltaSource := src,
          meta := mdel (if src ≠ "" then
              mset (mset a.meta "data" (.bytes bs)) "zdeltasrc" (.str src)
            else mset a.meta "data" (.bytes bs)) "stub" }, evs⟩ := by
      simp only [Attachment.LoadData, hnone, hok]
    rw [hL]
    refine ⟨rfl, rfl, ?_, rfl, rfl, mget_mdel_self _ _, ?_⟩
    · by_cases hsrc : src = ""
      · rw [if_neg (by simp [hsrc]), mget_mdel_ne _ _ _ (by decide), mget_mset_self]
      · rw [if_pos hsrc, mget_mdel_ne _ _ _ (by decide),
          mget_mset_ne _ _ _ _ (by decide), mget_mset_self]
    · intro hsrc
      rw [if_pos hsrc, mget_mdel_ne _ _ _ (by decide), mget_mset_self]
  · intro a d h
    simp [Attachment.LoadData, h]

theorem C3_loaddata_success_witness :
    (attT.Data = none ∧
     GetAttachmentMaybeAsDelta dbT attT.Key (loadSourceKeys attT true) =
       (.ok ([9, 9], ""), [.bucketGet "_sync:att:T"]) ∧
     mget (attT.LoadData dbT true).att.meta "data" = some (.bytes [9, 9]) ∧
     mget (attT.LoadData dbT true).att.meta "stub" = none) ∧
    (attInline.Data = some [1, 2] ∧
     attInline.LoadData dbT true = ⟨some [1, 2], none, attInline, []⟩) := by
  have h1 := (C3_loaddata_success dbT true).1 attT [9, 9] "" [.bucketGet "_sync:att:T"]
    rfl rfl
  have h2 := (C3_loaddata_success dbT true).2 attInline [1, 2] rfl
  exact ⟨⟨rfl, rfl, h1.2.2.1, h1.2.2.2.2.2.1⟩, ⟨rfl, h2⟩⟩

/-- C10: on an attachment with no already-resolved data, an engine error
makes `LoadData` return that error with nil bytes and leave the handle
unchanged: same receiver, hence no `data` or `zdeltasrc` gained, `stub`
kept, candidate list and chosen delta source untouched. -/
theorem C10_loaddata_error (db : DB) (deltaOK : Bool) (a : Attachment) (e : SgError)
    (evs : List Ev) (hnone : a.Data = none)
    (herr : GetAttachmentMaybeAsDelta db a.Key (loadSourceKeys a deltaOK) = (.error e, evs)) :
    a.LoadData db deltaOK = ⟨none, some e, a, evs⟩ ∧
    mget (a.LoadData db deltaOK).att.meta "data" = mget a.meta "data" ∧
    mget (a.LoadData db deltaOK).att.meta "zdeltasrc" = mget a.meta "zdeltasrc" ∧
    mget (a.LoadData db deltaOK).att.meta "stub" = mget a.meta "stub" ∧
    (a.LoadData db deltaOK).att.possibleDeltaSources = a.possibleDeltaSources ∧
    (a.LoadData db deltaOK).att.deltaSource = a.deltaSource := by
  have hL : a.LoadData db deltaOK = ⟨none, some e, a, evs⟩ := by
    simp only [Attachment.LoadData, hnone, herr]
  rw [hL]
  exact ⟨rfl, rfl, rfl, rfl, rfl, rfl⟩

theorem C10_loaddata_error_witness :
    attM.Data = none ∧
    GetAttachmentMaybeAsDelta dbEmpty attM.Key (loadSourceKeys attM true) =
      (.error (.bucketErr "_sync:att:M"), [.bucketGet "_sync:att:M"]) ∧
    attM.LoadData dbEmpty true =
      ⟨none, some (.bucketErr "_sync:att:M"), attM, [.bucketGet "_sync:att:M"]⟩ :=
  ⟨rfl, rfl, (C10_loaddata_error dbEmpty true attM _ _ rfl rfl).1⟩

/-- C8: with a selected delta source, the headers of a nested part
(`full = false`) carry both `Content-Encoding: zdelta` and
`X-Delta-Source` together with a `Content-Disposition`; a
`Content-Encoding` taken from the `encoding` field appears exactly when no
delta source is selected and the field is non-empty (so rules 1 and 2 are
mutually exclusive); and `Content-Type` appears exactly when `full` is
true and a content type is known. -/
theorem C8_headers (a : Attachment) (full : Bool) :
    (a.deltaSource ≠ "" →
      hget (a.Headers full) "Content-Encoding" = some "zdelta" ∧
      hget (a.Headers full) "X-Delta-Source" = some a.deltaSource) ∧
    (a.deltaSource = "" →
      hget (a.Headers full) "X-Delta-Source" = none ∧
      hget (a.Headers full) "Content-Encoding" =
        (if asString (mget a.meta "encoding") = "" then none
         else some (asString (mget a.meta "encoding")))) ∧
    hget (a.Headers false) "Content-Disposition" =
      some ("attachment; filename=" ++ goQuote a.Name) ∧
    hget (a.Headers full) "Content-Type" =
      (if full = true ∧ a.ContentType ≠ "" then some a.ContentType else none) := by
  refine ⟨?_, ?_, ?_, ?_⟩
  · intro hd
    cases full <;> by_cases hct : a.ContentType = "" <;>
      simp [Attachment.Headers, hget, hset, hd, hct]
  · intro hd
    by_cases he : asString (mget a.meta "encoding") = "" <;>
      cases full <;> by_cases hct : a.ContentType = "" <;>
        simp [Attachment.Headers, hget, hset, hd, he, hct]
  · by_cases hd : a.deltaSource = "" <;>
      by_cases he : asString (mget a.meta "encoding") = "" <;>
        simp [Attachment.Headers, hget, hset, hd, he]
  · cases full <;> by_cases hd : a.deltaSource = "" <;>
      by_cases he : asString (mget a.meta "encoding") = "" <;>
        by_cases hct : a.ContentType = "" <;>
          simp [Attachment.Headers, hget, hset, hd, he, hct]

theorem C8_headers_witness :
    attD.deltaSource ≠ "" ∧
    hget (attD.Headers false) "Content-Encoding" = some "zdelta" ∧
    hget (attD.Headers false) "X-Delta-Source" = some "S" ∧
    hget (attD.Headers false) "Content-Disposition" =
      some ("attachment; filename=" ++ goQuote "x") ∧
    attE.deltaSource = "" ∧
    hget (attE.Headers false) "Content-Encoding" = some "gzip" := by
  have h1 := C8_headers attD false
  have h2 := C8_headers attE false
  refine ⟨by decide, (h1.1 (by decide)).1, (h1.1 (by decide)).2, h1.2.2.1, rfl, ?_⟩
  have h3 := (h2.2.1 rfl).2
  simpa using h3

/-- C7: discovery returns a handle for exactly the (map-shaped)
attachment-map entries whose `revpos` is present and at least the
threshold; entries with a missing or too-small `revpos` produce no
handle; and an entry of the preferred-delta-sources map under the same
name seeds a single-element candidate list of the handle. -/
theorem C7_discover (body : Body) (minRevpos : Int)
    (deltaSrcKeys : List (String × AttachmentKey)) (a : Attachment) :
    a ∈ (findAttachments body minRevpos deltaSrcKeys).2 ↔
      ∃ name meta revpos,
        (name, Val.vmap meta) ∈ (Body.Attachments body).getD [] ∧
        toInt64 (mget meta "revpos") = some revpos ∧ minRevpos ≤ revpos ∧
        a = { Name := name, followingData := none,
              possibleDeltaSources :=
                match (deltaSrcKeys.find? (fun q => q.1 == name)).map (fun q => q.2) with
                | some src => some [src]
                | none => none,
              deltaSource := "", meta := meta } := by
  simp only [findAttachments, Body.ImmutableAttachmentsCopy, List.mem_filterMap]
  constructor
  · rintro ⟨⟨name, value⟩, hmem, hf⟩
    cases value with
    | vmap meta =>
      split at hf
      · split at hf
        · rename_i revpos heq hge
          exact ⟨name, meta, revpos, hmem, heq, hge, (Option.some.inj hf).symm⟩
        · exact absurd hf (by simp)
      · exact absurd hf (by simp)
    | str s => simp [mget, toInt64] at hf
    | bytes b => simp [mget, toInt64] at hf
    | int n => simp [mget, toInt64] at hf
    | bool b => simp [mget, toInt64] at hf
    | null => simp [mget, toInt64] at hf
  · rintro ⟨name, meta, r, hmem, hrev, hge, ha⟩
    refine ⟨(name, Val.vmap meta), hmem, ?_⟩
    rw [ha]
    simp only [hrev, if_pos hge]

/-! ### Shift lemmas for the pattern matcher -/

theorem foldr_match_map (g : Nat → List Nat) (l : List Nat) :
    l.foldr (fun j acc => (g j).map (fun x => x + 1) ++ acc) [] =
      (l.foldr (fun j acc => g j ++ acc) []).map (fun x => x + 1) := by
  induction l with
  | nil => rfl
  | cons j t ih => simp [ih]

theorem reMatch_cons_shift (c : Char) (s : List Char) (r : RE) :
    shiftable r = true →
    ∀ i, reMatch (c :: s) r (i + 1) = (reMatch s r i).map (fun x => x + 1) := by
  induction r with
  | chr c2 =>
    intro _ i
    rw [reMatch, reMatch, List.get?_cons_succ]
    cases s.get? i with
    | none => rfl
    | some c3 =>
      by_cases hc : c3 = c2
      · simp [hc]
      · simp [hc]
  | seq r1 r2 ih1 ih2 =>
    intro h i
    simp only [shiftable, Bool.and_eq_true] at h
    rw [reMatch, reMatch, ih1 h.1, List.foldr_map]
    simp only [ih2 h.2]
    rw [foldr_match_map]
  | alt r1 r2 ih1 ih2 =>
    intro h i
    simp only [shiftable, Bool.and_eq_true] at h
    rw [reMatch, reMatch, ih1 h.1, ih2 h.2, List.map_append]
  | opt r ih =>
    intro h i
    rw [reMatch, reMatch, ih h]
    rfl
  | bos => intro h; simp [shiftable] at h
  | eos =>
    intro _ i
    rw [reMatch, reMatch]
    by_cases hi : i = s.length
    · subst hi
      simp
    · rw [if_neg (by simpa using hi), if_neg hi]
      rfl
  | wb => intro h; simp [shiftable] at h

theorem reMatch_append_shift (s : List Char) (r : RE) (h : shiftable r = true) :
    ∀ pre : List Char, reMatch (pre ++ s) r pre.length =
      (reMatch s r 0).map (fun x => x + pre.length) := by
  intro pre
  induction pre with
  | nil => simp
  | cons c t ih =>
    simp only [List.cons_append, List.length_cons]
    rw [reMatch_cons_shift c (t ++ s) r h t.length, ih]
    simp [List.map_map, Function.comp, Nat.add_assoc]

theorem kBadFilenames_shiftable : shiftable kBadFilenames = true := by rfl

theorem reMatch_dotmp4 : reMatch ['.', 'm', 'p', '4'] kBadFilenames 0 = [4] := by rfl

/-- Any subject whose lowercasing ends in `.mp4` matches the
uncompressible-filename pattern. -/
theorem kBadFilenames_dotmp4 (name : String) (pre : List Char)
    (h : name.toList.map Char.toLower = pre ++ ['.', 'm', 'p', '4']) :
    reMatchString kBadFilenames name = true := by
  simp only [reMatchString, h]
  refine List.any_eq_true.mpr ⟨pre.length, List.mem_range.mpr ?_, ?_⟩
  · simp only [List.length_append, List.length_cons, List.length_nil]
    omega
  · rw [reMatch_append_shift _ _ kBadFilenames_shiftable pre, reMatch_dotmp4]
    rfl

/-- A handle with no string `encoding`, no selected delta source and a
name matching the uncompressible-filename pattern is not compressible. -/
theorem compressible_badfilename (a : Attachment)
    (henc : isStringVal (mget a.meta "encoding") = false)
    (hds : a.deltaSource = "")
    (hbad : reMatchString kBadFilenames a.Name = true) :
    a.Compressible = false := by
  rw [Attachment.Compressible, henc, hds]
  simp [hbad]

/-- C6: for handles with no encoding and no selected delta source,
content type `image/jpeg` is not compressible, `text/plain` is,
`image/svg+xml` is (the known-compressible check wins over the
uncompressible-family check), any name ending `.mp4` is not compressible
regardless of content type, and no content type with no bad-extension
name is compressible. -/
theorem C6_compressible :
    Attachment.Compressible ⟨"a", none, none, "", [("content_type", .str "image/jpeg")]⟩
      = false ∧
    Attachment.Compressible ⟨"a", none, none, "", [("content_type", .str "text/plain")]⟩
      = true ∧
    Attachment.Compressible ⟨"a", none, none, "", [("content_type", .str "image/svg+xml")]⟩
      = true ∧
    (∀ n ct : String,
      Attachment.Compressible ⟨n ++ ".mp4", none, none, "",
        [("content_type", .str ct)]⟩ = false) ∧
    (∀ n : String, reMatchString kBadFilenames n = false →
      Attachment.Compressible ⟨n, none, none, "", []⟩ = true) := by
  refine ⟨by decide, by decide, by decide, ?_, ?_⟩
  · intro n ct
    have hmap : ['.', 'm', 'p', '4'].map Char.toLower = ['.', 'm', 'p', '4'] := by decide
    have h : (n ++ ".mp4").toList.map Char.toLower =
        n.toList.map Char.toLower ++ ['.', 'm', 'p', '4'] := by
      rw [show (n ++ ".mp4").toList = n.toList ++ ['.', 'm', 'p', '4'] from rfl,
        List.map_append, hmap]
    exact compressible_badfilename _ rfl rfl (kBadFilenames_dotmp4 _ _ h)
  · intro n hbad
    rw [Attachment.Compressible]
    simp [hbad, Attachment.ContentType, mget, asString, isStringVal]

theorem C6_compressible_witness :
    Attachment.Compressible ⟨"movie" ++ ".mp4", none, none, "",
      [("content_type", .str "text/plain")]⟩ = false ∧
    (reMatchString kBadFilenames "a" = false ∧
     Attachment.Compressible ⟨"a", none, none, "", []⟩ = true) :=
  ⟨C6_compressible.2.2.2.1 "movie" "text/plain",
   by decide, C6_compressible.2.2.2.2 "a" (by decide)⟩

/-! ### Lemmas on the two phases of the delta resolution engine -/

theorem gamadCached_miss_prefix (db : DB) (key : AttachmentKey)
    (pre l : List AttachmentKey) (h : ∀ s ∈ pre, db.deltaCache s key = none) :
    gamadCached db key (pre ++ l) =
      ((gamadCached db key l).1,
        pre.map (fun s => Ev.cacheGet s key) ++ (gamadCached db key l).2) := by
  induction pre with
  | nil => simp
  | cons s t ih =>
    have hs : db.deltaCache s key = none := h s (by simp)
    have ht : ∀ s2 ∈ t, db.deltaCache s2 key = none := fun s2 hmem => h s2 (by simp [hmem])
    rw [List.cons_append, gamadCached, hs, ih ht]
    simp

theorem gamadCached_neg_head_ok (db : DB) (key s1 : AttachmentKey)
    (rest : List AttachmentKey) (b : List Nat)
    (hc : db.deltaCache s1 key = some [])
    (hb : db.bucket (attachmentKeyToDocKey key) = some b) :
    gamadCached db key (s1 :: rest) =
      (some (.ok (b, "")), [.cacheGet s1 key, .bucketGet (attachmentKeyToDocKey key)]) := by
  rw [gamadCached, hc]
  simp [GetAttachment, hb]

theorem gamadCached_neg_head_err (db : DB) (key s1 : AttachmentKey)
    (rest : List AttachmentKey)
    (hc : db.deltaCache s1 key = some [])
    (hb : db.bucket (attachmentKeyToDocKey key) = none) :
    gamadCached db key (s1 :: rest) =
      (some (.error (.bucketErr (attachmentKeyToDocKey key))),
        [.cacheGet s1 key, .bucketGet (attachmentKeyToDocKey key)]) := by
  rw [gamadCached, hc]
  simp [GetAttachment, hb]

theorem gamadCached_hit_head (db : DB) (key s1 : AttachmentKey)
    (rest : List AttachmentKey) (r : List Nat)
    (hc : db.deltaCache s1 key = some r) (hr : r ≠ []) :
    gamadCached db key (s1 :: rest) = (some (.ok (r, s1)), [.cacheGet s1 key]) := by
  rw [gamadCached, hc]
  simp [List.length_eq_zero, hr]

theorem gamad_of_cached (db : DB) (key : AttachmentKey) (sks : List AttachmentKey)
    (res : Except SgError (List Nat × AttachmentKey)) (evs : List Ev)
    (h : gamadCached db key sks = (some res, evs)) :
    GetAttachmentMaybeAsDelta db key sks = (res, evs) := by
  rw [GetAttachmentMaybeAsDelta, h]

theorem gamad_nocache_err (db : DB) (key : AttachmentKey) (sks : List AttachmentKey)
    (evs1 : List Ev) (h : gamadCached db key sks = (none, evs1))
    (hb : db.bucket (attachmentKeyToDocKey key) = none) :
    GetAttachmentMaybeAsDelta db key sks =
      (.error (.bucketErr (attachmentKeyToDocKey key)),
        evs1 ++ [.bucketGet (attachmentKeyToDocKey key)]) := by
  rw [GetAttachmentMaybeAsDelta, h]
  simp [GetAttachment, hb]

theorem gamad_generate_some (db : DB) (key : AttachmentKey) (sks : List AttachmentKey)
    (evs1 evs3 : List Ev) (target r : List Nat) (sk : AttachmentKey)
    (h : gamadCached db key sks = (none, evs1))
    (hb : db.bucket (attachmentKeyToDocKey key) = some target)
    (hg : gamadGenerate db key target sks = (some (r, sk), evs3)) :
    GetAttachmentMaybeAsDelta db key sks =
      (.ok (r, sk), evs1 ++ [.bucketGet (attachmentKeyToDocKey key)] ++ evs3) := by
  rw [GetAttachmentMaybeAsDelta, h]
  simp [GetAttachment, hb, hg]

theorem gamad_generate_none (db : DB) (key : AttachmentKey) (sks : List AttachmentKey)
    (evs1 evs3 : List Ev) (target : List Nat)
    (h : gamadCached db key sks = (none, evs1))
    (hb : db.bucket (attachmentKeyToDocKey key) = some target)
    (hg : gamadGenerate db key target sks = (none, evs3)) :
    GetAttachmentMaybeAsDelta db key sks =
      (.ok (target, ""), evs1 ++ [.bucketGet (attachmentKeyToDocKey key)] ++ evs3) := by
  rw [GetAttachmentMaybeAsDelta, h]
  simp [GetAttachment, hb, hg]

theorem gamadGenerate_skip_prefix (db : DB) (key : AttachmentKey) (target : List Nat)
    (pre l : List AttachmentKey)
    (h : ∀ s ∈ pre, db.bucket (attachmentKeyToDocKey s) = none) :
    gamadGenerate db key target (pre ++ l) =
      ((gamadGenerate db key target l).1,
        pre.map (fun s => Ev.bucketGet (attachmentKeyToDocKey s)) ++
          (gamadGenerate db key target l).2) := by
  induction pre with
  | nil => simp
  | cons s t ih =>
    have hs : db.bucket (attachmentKeyToDocKey s) = none := h s (by simp)
    have ht : ∀ s2 ∈ t, db.bucket (attachmentKeyToDocKey s2) = none :=
      fun s2 hmem => h s2 (by simp [hmem])
    rw [List.cons_append, gamadGenerate, hs, ih ht]
    simp

theorem gamadGenerate_head_delta (db : DB) (key : AttachmentKey) (target : List Nat)
    (s : AttachmentKey) (rest : List AttachmentKey) (src d : List Nat)
    (hb : db.bucket (attachmentKeyToDocKey s) = some src)
    (hc : db.codec src target = some d) (hd : d ≠ []) :
    gamadGenerate db key target (s :: rest) =
      (some (d, s), [.bucketGet (attachmentKeyToDocKey s), .codecGen s key]) := by
  rw [gamadGenerate, hb]
  simp [hc, List.length_eq_zero, hd]

theorem gamadGenerate_head_empty (db : DB) (key : AttachmentKey) (target : List Nat)
    (s : AttachmentKey) (rest : List AttachmentKey) (src : List Nat)
    (hb : db.bucket (attachmentKeyToDocKey s) = some src)
    (hc : db.codec src target = some []) :
    gamadGenerate db key target (s :: rest) =
      (none, [.bucketGet (attachmentKeyToDocKey s), .codecGen s key]) := by
  rw [gamadGenerate, hb]
  simp [hc]

/-- C4: a negative (explicitly empty) cache entry for the first candidate
makes resolution return the full target blob with an empty source key —
the delta codec is never invoked and no later candidate's cache entry is
consulted (the whole event trace is the one cache lookup and the one blob
fetch); and the first cache hit with a non-empty payload, after any run of
cache misses, is returned immediately with that candidate as source and
with no blob fetch. -/
theorem C4_cached (db : DB) (key s1 : AttachmentKey) (rest : List AttachmentKey) :
    (db.deltaCache s1 key = some [] →
      (GetAttachmentMaybeAsDelta db key (s1 :: rest)).2 =
        [.cacheGet s1 key, .bucketGet (attachmentKeyToDocKey key)] ∧
      (∀ b, db.bucket (attachmentKeyToDocKey key) = some b →
        GetAttachmentMaybeAsDelta db key (s1 :: rest) =
          (.ok (b, ""), [.cacheGet s1 key, .bucketGet (attachmentKeyToDocKey key)]))) ∧
    (∀ pre r, (∀ s ∈ pre, db.deltaCache s key = none) →
      db.deltaCache s1 key = some r → r ≠ [] →
      GetAttachmentMaybeAsDelta db key (pre ++ s1 :: rest) =
        (.ok (r, s1), pre.map (fun s => Ev.cacheGet s key) ++ [.cacheGet s1 key])) := by
  constructor
  · intro hc
    constructor
    · cases hb : db.bucket (attachmentKeyToDocKey key) with
      | some b =>
        rw [gamad_of_cached db key _ _ _ (gamadCached_neg_head_ok db key s1 rest b hc hb)]
      | none =>
        rw [gamad_of_cached db key _ _ _ (gamadCached_neg_head_err db key s1 rest hc hb)]
    · intro b hb
      exact gamad_of_cached db key _ _ _ (gamadCached_neg_head_ok db key s1 rest b hc hb)
  · intro pre r hmiss hc hr
    have h1 := gamadCached_miss_prefix db key pre (s1 :: rest) hmiss
    rw [gamadCached_hit_head db key s1 rest r hc hr] at h1
    exact gamad_of_cached db key _ _ _ h1

theorem C4_cached_witness :
    dbC4.deltaCache "s1" "T" = some [] ∧
    GetAttachmentMaybeAsDelta dbC4 "T" ["s1", "s2"] =
      (.ok ([9, 9], ""), [.cacheGet "s1" "T", .bucketGet "_sync:att:T"]) ∧
    (∀ s, s ∈ ["s0"] → dbC4.deltaCache s "T" = none) ∧
    dbC4.deltaCache "s3" "T" = some [3] ∧
    GetAttachmentMaybeAsDelta dbC4 "T" (["s0"] ++ "s3" :: ["s2"]) =
      (.ok ([3], "s3"), [.cacheGet "s0" "T", .cacheGet "s3" "T"]) := by
  have hmiss : ∀ s, s ∈ (["s0"] : List AttachmentKey) → dbC4.deltaCache s "T" = none := by
    intro s hs
    rw [List.mem_singleton] at hs
    subst hs
    rfl
  refine ⟨rfl, ?_, hmiss, rfl, ?_⟩
  · exact ((C4_cached dbC4 "T" "s1" ["s2"]).1 rfl).2 [9, 9] rfl
  · exact (C4_cached dbC4 "T" "s3" ["s2"]).2 ["s0"] [3] hmiss rfl (by decide)

/-- C5: with no cache hits, resolution fetches the full target blob first
and propagates its fetch failure; candidates whose raw blob is missing are
skipped without error; a non-empty generated delta is returned immediately
with its candidate as source; and an explicitly empty generated delta
stops all further candidates and yields the already-fetched full target
blob with an empty source key (the event traces below show exactly which
collaborator calls happen). -/
theorem C5_generate (db : DB) (key : AttachmentKey) :
    (∀ sks, (∀ s ∈ sks, db.deltaCache s key = none) →
      db.bucket (attachmentKeyToDocKey key) = none →
      GetAttachmentMaybeAsDelta db key sks =
        (.error (.bucketErr (attachmentKeyToDocKey key)),
          sks.map (fun s => Ev.cacheGet s key) ++
            [.bucketGet (attachmentKeyToDocKey key)])) ∧
    (∀ pre s2 rest target src,
      (∀ s ∈ pre ++ s2 :: rest, db.deltaCache s key = none) →
      db.bucket (attachmentKeyToDocKey key) = some target →
      (∀ p ∈ pre, db.bucket (attachmentKeyToDocKey p) = none) →
      db.bucket (attachmentKeyToDocKey s2) = some src →
      (∀ d, db.codec src target = some d → d ≠ [] →
        GetAttachmentMaybeAsDelta db key (pre ++ s2 :: rest) =
          (.ok (d, s2),
            (pre ++ s2 :: rest).map (fun s => Ev.cacheGet s key) ++
              [.bucketGet (attachmentKeyToDocKey key)] ++
              (pre.map (fun p => Ev.bucketGet (attachmentKeyToDocKey p)) ++
                [.bucketGet (attachmentKeyToDocKey s2), .codecGen s2 key]))) ∧
      (db.codec src target = some [] →
        GetAttachmentMaybeAsDelta db key (pre ++ s2 :: rest) =
          (.ok (target, ""),
            (pre ++ s2 :: rest).map (fun s => Ev.cacheGet s key) ++
              [.bucketGet (attachmentKeyToDocKey key)] ++
              (pre.map (fun p => Ev.bucketGet (attachmentKeyToDocKey p)) ++
                [.bucketGet (attachmentKeyToDocKey s2), .codecGen s2 key])))) := by
  have hcached : ∀ sks, (∀ s ∈ sks, db.deltaCache s key = none) →
      gamadCached db key sks = (none, sks.map (fun s => Ev.cacheGet s key)) := by
    intro sks hmiss
    have h := gamadCached_miss_prefix db key sks [] hmiss
    simpa [gamadCached] using h
  constructor
  · intro sks hmiss hb
    exact gamad_nocache_err db key sks _ (hcached sks hmiss) hb
  · intro pre s2 rest target src hmiss hb hpre hs2
    constructor
    · intro d hcodec hd
      have hgen := gamadGenerate_skip_prefix db key target pre (s2 :: rest) hpre
      rw [gamadGenerate_head_delta db key target s2 rest src d hs2 hcodec hd] at hgen
      exact gamad_generate_some db key _ _ _ target d s2
        (hcached _ hmiss) hb hgen
    · intro hcodec
      have hgen := gamadGenerate_skip_prefix db key target pre (s2 :: rest) hpre
      rw [gamadGenerate_head_empty db key target s2 rest src hs2 hcodec] at hgen
      exact gamad_generate_none db key _ _ _ target
        (hcached _ hmiss) hb hgen

theorem C5_generate_witness :
    (∀ s, s ∈ (["s1"] : List AttachmentKey) → dbEmpty.deltaCache s "T" = none) ∧
    dbEmpty.bucket "_sync:att:T" = none ∧
    GetAttachmentMaybeAsDelta dbEmpty "T" ["s1"] =
      (.error (.bucketErr "_sync:att:T"), [.cacheGet "s1" "T", .bucketGet "_sync:att:T"]) ∧
    GetAttachmentMaybeAsDelta dbC5 "T" (["s1"] ++ "s2" :: ["s4"]) =
      (.ok ([5], "s2"),
        [.cacheGet "s1" "T", .cacheGet "s2" "T", .cacheGet "s4" "T",
         .bucketGet "_sync:att:T", .bucketGet "_sync:att:s1",
         .bucketGet "_sync:att:s2", .codecGen "s2" "T"]) := by
  have hm1 : ∀ s, s ∈ (["s1"] : List AttachmentKey) → dbEmpty.deltaCache s "T" = none :=
    fun s _ => rfl
  have hm2 : ∀ s, s ∈ (["s1"] ++ "s2" :: ["s4"] : List AttachmentKey) →
      dbC5.deltaCache s "T" = none := fun s _ => rfl
  have hp2 : ∀ p, p ∈ (["s1"] : List AttachmentKey) →
      dbC5.bucket (attachmentKeyToDocKey p) = none := by
    intro p hp
    rw [List.mem_singleton] at hp
    subst hp
    rfl
  refine ⟨hm1, rfl, ?_, ?_⟩
  · exact (C5_generate dbEmpty "T").1 ["s1"] hm1 rfl
  · have h := ((C5_generate dbC5 "T").2 ["s1"] "s2" ["s4"] [9, 9] [7]
      hm2 rfl hp2 rfl).1 [5] rfl (by decide)
    simpa using h

/-! ### Ingestion claims -/

/-- C2 counterexample: on a body whose attachment map holds an inline
entry followed by an entry that is not map-shaped, ingestion does return
the malformed-input error — but a content-store write has already been
performed for the earlier entry, so it did not fail before processing any
entry and the store-write count is not zero. -/
theorem C2_counterexample :
    (storeAttachments dbEmpty none 2 bodyC2).err =
      some (.httpErr 400 "Invalid _attachments") ∧
    (storeAttachments dbEmpty none 2 bodyC2).evs.any
      (fun e => match e with | .bucketAdd _ => true | _ => false) = true := by
  exact ⟨rfl, rfl⟩

/-- C2 (amended): ingestion of a malformed attachment map fails with the
malformed-input error; when the reserved field holds a non-map, non-nil
value it fails before processing any entry, with zero store writes and the
body untouched; when an individual entry under a map-shaped attachment map
is not map-shaped, the failure occurs at the moment that entry is reached,
with no store write for it or anything after it — store writes for entries
processed earlier may however already have happened. -/
theorem C2_malformed_map (db : DB) (parentBody : Option Body) (generation : Int) :
    (∀ (body : Body) (v : Val), mget body "_attachments" = some v →
      (∀ m, v ≠ .vmap m) → v ≠ .null →
      storeAttachments db parentBody generation body =
        ⟨body, some (.httpErr 400 "Invalid _attachments"), []⟩) ∧
    (∀ parentAtts atts name (v : Val) rest, (∀ m, v ≠ .vmap m) →
      saLoop db parentBody generation parentAtts atts ((name, v) :: rest) =
        ((atts, some (.httpErr 400 "Invalid _attachments")), [])) := by
  constructor
  · intro body v hv hnm hnn
    cases v with
    | null => exact absurd rfl hnn
    | vmap m => exact absurd rfl (hnm m)
    | str s => simp [storeAttachments, Body.Attachments, hv]
    | bytes b => simp [storeAttachments, Body.Attachments, hv]
    | int n => simp [storeAttachments, Body.Attachments, hv]
    | bool b => simp [storeAttachments, Body.Attachments, hv]
  · intro parentAtts atts name v rest hnm
    cases v with
    | vmap m => exact absurd rfl (hnm m)
    | str s => simp [saLoop]
    | bytes b => simp [saLoop]
    | int n => simp [saLoop]
    | bool b => simp [saLoop]
    | null => simp [saLoop]

theorem C2_malformed_map_witness :
    mget bodyScalar "_attachments" = some (.str "oops") ∧
    storeAttachments dbEmpty none 2 bodyScalar =
      ⟨bodyScalar, some (.httpErr 400 "Invalid _attachments"), []⟩ ∧
    saLoop dbEmpty none 2 none [] [("z", .str "oops")] =
      (([], some (.httpErr 400 "Invalid _attachments")), []) := by
  refine ⟨rfl, ?_, ?_⟩
  · exact (C2_malformed_map dbEmpty none 2).1 bodyScalar (.str "oops") rfl
      (fun m h => by cases h) (fun h => by cases h)
  · exact (C2_malformed_map dbEmpty none 2).2 none [] "z" (.str "oops") []
      (fun m h => by cases h)

/-- C1 counterexample: a stub entry with no `digest`, ingested while the
parent revision body exists and has an attachment map with no entry of the
stub's name.  The claim demands a malformed-input error here, but
ingestion returns no error at all (and performs no store write), leaving
the digest-less stub in place. -/
theorem C1_counterexample :
    mget metaC1 "data" = none ∧
    isTrueVal (mget metaC1 "stub") = true ∧
    toInt64 (mget metaC1 "revpos") = some 1 ∧
    mget metaC1 "digest" = none ∧
    parentAttachmentsOf (some parentC1) =
      some [("b", .vmap [("digest", .str "sha1-x"), ("revpos", .int 1)])] ∧
    mget [("b", .vmap [("digest", .str "sha1-x"), ("revpos", .int 1)])] "a" = none ∧
    (storeAttachments dbEmpty (some parentC1) 2 bodyC1).err = none ∧
    (storeAttachments dbEmpty (some parentC1) 2 bodyC1).evs = [] := by
  exact ⟨rfl, rfl, rfl, rfl, rfl, rfl, rfl, rfl⟩

/-- C1 (amended): for a stub entry (no `data`, `stub = true`, valid
positive `revpos`) reached by the ingestion loop: when no parent
attachment map is available (the parent revision is missing or lacks a
map-shaped attachment map), a missing `digest` triggers exactly the
malformed-input error the claim demands, and a present `digest` lets
processing continue; but when a parent attachment map is available and
merely lacks an entry of the given name, the entry is left unchanged and
processing continues without any error — the digest check is skipped
(the counterexample above exercises this at the top level).  The last
conjunct lifts the no-parent-map error to `storeAttachments` for a body
whose attachment map starts with the stub entry. -/
theorem C1_stub_digest (db : DB) (parentBody : Option Body) (generation : Int)
    (name : String) (meta rest : List (String × Val))
    (hdata : mget meta "data" = none)
    (hstub : isTrueVal (mget meta "stub") = true)
    (hrev : ∃ r, toInt64 (mget meta "revpos") = some r ∧ 1 ≤ r) :
    (∀ (parentAtts : Option (List (String × Val))) atts,
      (match parentAtts with
       | none => parentAttachmentsOf parentBody
       | some pa => some pa) = none →
      isNilVal (mget meta "digest") = true →
      saLoop db parentBody generation parentAtts atts ((name, .vmap meta) :: rest) =
        ((atts, some (.httpErr 400
          ("Missing digest in stub attachment " ++ goQuote name))), [])) ∧
    (∀ (parentAtts : Option (List (String × Val))) atts,
      (match parentAtts with
       | none => parentAttachmentsOf parentBody
       | some pa => some pa) = none →
      isNilVal (mget meta "digest") = false →
      saLoop db parentBody generation parentAtts atts ((name, .vmap meta) :: rest) =
        saLoop db parentBody generation none atts rest) ∧
    (∀ (parentAtts : Option (List (String × Val))) atts pa,
      (match parentAtts with
       | none => parentAttachmentsOf parentBody
       | some pa2 => some pa2) = some pa →
      isNilVal (mget pa name) = true →
      saLoop db parentBody generation parentAtts atts ((name, .vmap meta) :: rest) =
        saLoop db parentBody generation (some pa) atts rest) ∧
    (parentAttachmentsOf parentBody = none →
      isNilVal (mget meta "digest") = true →
      ∀ body : Body, Body.Attachments body = some ((name, .vmap meta) :: rest) →
      (storeAttachments db parentBody generation body).err =
        some (.httpErr 400 ("Missing digest in stub attachment " ++ goQuote name))) := by
  obtain ⟨r, hr, hr1⟩ := hrev
  have hlt : ¬ r < 1 := by omega
  have key1 : ∀ (parentAtts : Option (List (String × Val))) atts,
      (match parentAtts with
       | none => parentAttachmentsOf parentBody
       | some pa => some pa) = none →
      isNilVal (mget meta "digest") = true →
      saLoop db parentBody generation parentAtts atts ((name, .vmap meta) :: rest) =
        ((atts, some (.httpErr 400
          ("Missing digest in stub attachment " ++ goQuote name))), []) := by
    intro parentAtts atts hfetch hdig
    simp only [saLoop, hdata, hstub, hr]
    simp [hfetch, hlt, hdig]
  refine ⟨key1, ?_, ?_, ?_⟩
  · intro parentAtts atts hfetch hdig
    simp only [saLoop, hdata, hstub, hr]
    simp [hfetch, hlt, hdig]
  · intro parentAtts atts pa hfetch hnil
    simp only [saLoop, hdata, hstub, hr]
    simp [hfetch, hlt, hnil]
  · intro hpa hdig body hbody
    have h1 := key1 none ((name, .vmap meta) :: rest) hpa hdig
    simp [storeAttachments, hbody, h1]

theorem C1_stub_digest_witness :
    mget metaC1 "data" = none ∧
    saLoop dbEmpty none 2 none [("a", .vmap metaC1)] [("a", .vmap metaC1)] =
      (([("a", .vmap metaC1)], some (.httpErr 400
        ("Missing digest in stub attachment " ++ goQuote "a"))), []) ∧
    saLoop dbEmpty (some parentC1) 2 none [("a", .vmap metaC1)] [("a", .vmap metaC1)] =
      saLoop dbEmpty (some parentC1) 2
        (some [("b", .vmap [("digest", .str "sha1-x"), ("revpos", .int 1)])])
        [("a", .vmap metaC1)] [] := by
  have h := C1_stub_digest dbEmpty none 2 "a" metaC1 [] rfl rfl ⟨1, rfl, by decide⟩
  have h2 := C1_stub_digest dbEmpty (some parentC1) 2 "a" metaC1 [] rfl rfl
    ⟨1, rfl, by decide⟩
  exact ⟨rfl, h.1 none [("a", .vmap metaC1)] rfl rfl,
    h2.2.2.1 none [("a", .vmap metaC1)] _ rfl rfl⟩

end SG
